import Mathlib

/-!
Shallow embedding of `go-build/check_coverage.py`, a CI linter that
(a) checks that every directory with buildable Go sources contains a
`_test.go` file and (b) checks a configured minimum line-coverage
percentage against a Cobertura-style `coverage.xml` report.

Modelling conventions:
* A directory path is the list of its name components relative to the
  traversal root; the root itself is `[]`.
* The filesystem is abstract: `isDir`, `isLink` and `listdir` are
  arbitrary functions, mirroring the `os` primitives the script calls.
* A compiled regular expression is abstracted to its matching behaviour,
  a predicate `String → Bool` (Python `prog.match(s) is not None`).
* Python floats are modelled as rationals (`ℚ`).
* Where the Python can raise an uncaught exception (the `while` loop
  that need not terminate on a cyclic filesystem, and the
  `ZeroDivisionError` on an empty coverage report), the model returns
  `Option`, with `none` standing for the crash / divergence.
-/

set_option maxRecDepth 100000

namespace CheckCoverage

/-- `GO_FILE_SUFFIX = '.go'` (line 50 of the script). -/
def GO_FILE_SUFFIX : String := ".go"

/-- `GO_TEST_FILE_SUFFIX = '_test.go'` (line 51). -/
def GO_TEST_FILE_SUFFIX : String := "_test.go"

/-- `COVERAGE_REPORT_FILE = 'coverage.xml'` (line 53). -/
def COVERAGE_REPORT_FILE : String := "coverage.xml"

/-- The coverage section of the JSON config: `{"min percentage": q}`.
`minPercentage = none` models a coverage object lacking that key. -/
structure CoverageSection where
  minPercentage : Option ℚ

/-- The parsed JSON config file.  An absent `"skipped paths"` key and an
empty list are indistinguishable to the script (`SkippedPathDetecter.__init__`
defaults both to empty), so both are modelled by `[]`.  `coverage = none`
models a config with no `"coverage"` key. -/
structure Config where
  skippedPaths : List String
  skippedRegexPaths : List (String → Bool)
  coverage : Option CoverageSection

/-- Abstract filesystem: the three `os` primitives used by the traversal,
on paths given as component lists relative to the root. -/
structure FS where
  isDir : List String → Bool
  isLink : List String → Bool
  listdir : List String → List String

/-- Python `s.endswith(suffix)`, computed on the character lists of the
strings (the builtin `String.endsWith` is not kernel-reducible). -/
def strEndsWith (s suffix : String) : Bool := suffix.data.isSuffixOf s.data

/-- `SkippedPathDetecter._ALWAYS_SKIPPED` (lines 79-85). -/
def ALWAYS_SKIPPED : List String := [".git", ".gen", ".tmp", "vendor", "go-build"]

/-- `os.path.relpath(path, path_root)` for a path strictly below the root:
the components joined with `/`. -/
def relPath (p : List String) : String := String.intercalate "/" p

/-- The absolute path of `p`: `path_root` successively `os.path.join`ed
with each component. -/
def fullPath (pathRoot : String) (p : List String) : String :=
  p.foldl (fun a b => a ++ "/" ++ b) pathRoot

/-- `SkippedPathDetecter.should_skip` (lines 98-115): skip anything that is
not a directory, any symlink, and any relative path that is always skipped,
in the configured skip set, or matched by a configured skip regex. -/
def should_skip (fs : FS) (config : Config) (path : List String) : Bool :=
  if fs.isDir path = false then true
  else if fs.isLink path then true
  else if relPath path ∈ ALWAYS_SKIPPED then true
  else if relPath path ∈ config.skippedPaths then true
  else config.skippedRegexPaths.any fun prog => prog (relPath path)

/-- `should_skip_file` (lines 160-168): a file is ignored iff some
CLI-supplied regex matches its full path. -/
def should_skip_file (path : String) (ignoredFileRegexPaths : List (String → Bool)) : Bool :=
  ignoredFileRegexPaths.any fun reg => reg path

/-- One step of the per-directory entry loop (lines 140-147), threading the
`(found_go_file, found_test_file)` pair. -/
def goEntryStep (pathRoot : String) (ign : List (String → Bool)) (parent : List String)
    (acc : Bool × Bool) (entry : String) : Bool × Bool :=
  if strEndsWith entry GO_FILE_SUFFIX then
    if should_skip_file (fullPath pathRoot (parent ++ [entry])) ign then acc
    else (true, acc.2 || strEndsWith entry GO_TEST_FILE_SUFFIX)
  else acc

/-- The per-directory check of `all_directories_have_tests` (lines 137-149):
`found_go_file and not found_test_file` after scanning the entries. -/
def dirMissingTests (pathRoot : String) (ign : List (String → Bool))
    (parent : List String) (entries : List String) : Bool :=
  let r := entries.foldl (goEntryStep pathRoot ign parent) (false, false)
  r.1 && !r.2

/-- The `while unvisited_paths` loop of `all_directories_have_tests`
(lines 125-150), with explicit fuel.  `pop()` takes the last element of the
worklist; non-skipped entries are pushed at the end; a directory whose entry
scan finds a go file but no test file is appended to `bad`.  The returned
pair is (directories visited and listed, bad paths); `none` models a run of
the Python loop that does not finish within `fuel` iterations. -/
def scanGo (fs : FS) (pathRoot : String) (config : Config) (ign : List (String → Bool)) :
    Nat → List (List String) → List (List String) → List (List String) →
    Option (List (List String) × List (List String))
  | 0, frontier, visited, bad => if frontier.isEmpty then some (visited, bad) else none
  | fuel + 1, frontier, visited, bad =>
    match frontier.getLast? with
    | none => some (visited, bad)
    | some parent =>
      let rest := frontier.dropLast
      let entries := fs.listdir parent
      let pushed := entries.filterMap fun e =>
        if should_skip fs config (parent ++ [e]) then none else some (parent ++ [e])
      let bad' := if dirMissingTests pathRoot ign parent entries then bad ++ [parent] else bad
      scanGo fs pathRoot config ign fuel (rest ++ pushed) (visited ++ [parent]) bad'

/-- `all_directories_have_tests` (lines 117-158): seed the worklist with the
root and return whether no bad path was found. -/
def all_directories_have_tests (fs : FS) (pathRoot : String) (config : Config)
    (ign : List (String → Bool)) (fuel : Nat) : Option Bool :=
  (scanGo fs pathRoot config ign fuel [[]] [] []).map fun r => r.2.isEmpty

/-- An XML element: tag, attributes, children (the fragment of
`xml.etree.ElementTree` the script touches). -/
inductive XML where
  | elem (tag : String) (attrs : List (String × String)) (children : List XML)

/-- `element.get(key)`: attribute lookup, `none` when the attribute is absent. -/
def XML.getAttr (x : XML) (key : String) : Option String :=
  match x with
  | .elem _ attrs _ => attrs.lookup key

mutual

/-- `element.iter(tag)`: the element itself and all its descendants carrying
the tag, in document order. -/
def XML.iterTag (tag : String) : XML → List XML
  | .elem t a c => (if t = tag then [XML.elem t a c] else []) ++ XML.iterTagList tag c

/-- `iterTag` mapped over a list of children, concatenated. -/
def XML.iterTagList (tag : String) : List XML → List XML
  | [] => []
  | x :: xs => XML.iterTag tag x ++ XML.iterTagList tag xs

end

/-- The nested `class`/`method`/`line` iteration of `coverage_is_sufficient`
(lines 193-195), flattened to the list of visited `line` elements. -/
def collectLines (root : XML) : List XML :=
  (root.iterTag "class").flatMap fun c =>
    (c.iterTag "method").flatMap fun m => m.iterTag "line"

/-- The counter loop of `coverage_is_sufficient` (lines 190-199): returns
`(uncovered_lines, covered_lines)`.  A line increments the uncovered counter
iff its `hits` attribute is the string `"0"`; every other line, including a
line with no `hits` attribute, increments the covered counter. -/
def tallyLines (root : XML) : Nat × Nat :=
  (collectLines root).foldl
    (fun acc line =>
      if line.getAttr "hits" = some "0" then (acc.1 + 1, acc.2) else (acc.1, acc.2 + 1))
    (0, 0)

/-- `coverage_is_sufficient` (lines 170-212).  `reportExists` models
`os.path.isfile(coverage_file_path)` and `report` the parsed `coverage.xml`.
The result is `none` exactly when the Python raises `ZeroDivisionError`:
a configured threshold, an existing report, and zero total lines. -/
def coverage_is_sufficient (reportExists : Bool) (report : XML) (config : Config) :
    Option Bool :=
  match config.coverage with
  | none => some true
  | some coverageSection =>
    match coverageSection.minPercentage with
    | none => some false
    | some minPercent =>
      if reportExists = false then some false
      else
        let t := tallyLines report
        let uncoveredLines := t.1
        let coveredLines := t.2
        let totalLines := coveredLines + uncoveredLines
        if totalLines = 0 then none
        else
          let actualPercent : ℚ := 100 * (coveredLines : ℚ) / (totalLines : ℚ)
          if actualPercent < minPercent then some false else some true

/-- The inputs `main` (lines 214-238) reads from its environment: whether the
config file exists at the root, the result of `load_config_file` when it does
(`none` = unparsable JSON), the filesystem, the root path, the compiled
`--cover_ignore_srcs` regexes, whether `coverage.xml` exists, its parsed
contents, and the fuel bounding the traversal loop. -/
structure Env where
  configFileExists : Bool
  configParse : Option Config
  fs : FS
  pathRoot : String
  coverIgnoreSrcs : List (String → Bool)
  reportExists : Bool
  report : XML
  fuel : Nat

/-- `main` (lines 214-238): exit 0 when the config file is absent; exit 1
when it is present but unparsable; otherwise run the test-presence gate and
then the coverage gate, returning 1 on the first failure and 0 if both pass.
`none` propagates a crash / divergence of a gate that actually runs. -/
def main (env : Env) : Option Nat :=
  if env.configFileExists = false then some 0
  else
    match env.configParse with
    | none => some 1
    | some config =>
      match all_directories_have_tests env.fs env.pathRoot config env.coverIgnoreSrcs env.fuel with
      | none => none
      | some allTested =>
        if allTested = false then some 1
        else
          match coverage_is_sufficient env.reportExists env.report config with
          | none => none
          | some sufficient => if sufficient = false then some 1 else some 0

/-- A config with no skip rules and no coverage section. -/
def emptyConfig : Config := ⟨[], [], none⟩

/-- A filesystem whose root contains a single file `x.go`. -/
def fsOnlyGo : FS :=
  ⟨fun p => p.isEmpty, fun _ => false, fun p => if p.isEmpty then ["x.go"] else []⟩

/-- A filesystem whose root contains `x.go` and `x_test.go`. -/
def fsGoWithTest : FS :=
  ⟨fun p => p.isEmpty, fun _ => false,
   fun p => if p.isEmpty then ["x.go", "x_test.go"] else []⟩

/-- An entry counted as a buildable go source by the per-directory loop:
its name ends with `.go` and its full path matches no ignore regex. -/
def goSourceEntry (pathRoot : String) (ign : List (String → Bool)) (parent : List String)
    (e : String) : Bool :=
  strEndsWith e GO_FILE_SUFFIX && !should_skip_file (fullPath pathRoot (parent ++ [e])) ign

/-- An entry that sets `found_test_file`: a non-ignored go source whose name
ends with `_test.go`. -/
def goTestEntry (pathRoot : String) (ign : List (String → Bool)) (parent : List String)
    (e : String) : Bool :=
  goSourceEntry pathRoot ign parent e && strEndsWith e GO_TEST_FILE_SUFFIX

lemma foldl_goEntryStep (pathRoot : String) (ign : List (String → Bool)) (parent : List String) :
    ∀ (entries : List String) (g t : Bool),
      entries.foldl (goEntryStep pathRoot ign parent) (g, t) =
        (g || entries.any (goSourceEntry pathRoot ign parent),
         t || entries.any (goTestEntry pathRoot ign parent)) := by
  intro entries
  induction entries with
  | nil => simp
  | cons e es ih =>
    intro g t
    simp only [List.foldl_cons, List.any_cons]
    by_cases hgo : strEndsWith e GO_FILE_SUFFIX
    · by_cases hskip : should_skip_file (fullPath pathRoot (parent ++ [e])) ign
      · simp [goEntryStep, goSourceEntry, goTestEntry, hgo, hskip, ih]
      · simp only [goEntryStep, hgo, hskip, if_true, if_false, ih]
        simp [goSourceEntry, goTestEntry, hgo, hskip, Bool.or_assoc]
    · simp [goEntryStep, goSourceEntry, goTestEntry, hgo, ih]

lemma dirMissingTests_eq (pathRoot : String) (ign : List (String → Bool))
    (parent : List String) (entries : List String) :
    dirMissingTests pathRoot ign parent entries =
      (entries.any (goSourceEntry pathRoot ign parent) &&
        !entries.any (goTestEntry pathRoot ign parent)) := by
  simp [dirMissingTests, foldl_goEntryStep]

lemma dirMissingTests_iff (pathRoot : String) (ign : List (String → Bool))
    (parent : List String) (entries : List String) :
    dirMissingTests pathRoot ign parent entries = true ↔
      ((∃ e ∈ entries, strEndsWith e GO_FILE_SUFFIX = true ∧
          should_skip_file (fullPath pathRoot (parent ++ [e])) ign = false) ∧
        (∀ e ∈ entries, strEndsWith e GO_FILE_SUFFIX = true →
          should_skip_file (fullPath pathRoot (parent ++ [e])) ign = false →
          strEndsWith e GO_TEST_FILE_SUFFIX = false)) := by
  rw [dirMissingTests_eq]
  simp only [Bool.and_eq_true, Bool.not_eq_true', List.any_eq_false, List.any_eq_true,
    goSourceEntry, goTestEntry]
  constructor
  · rintro ⟨⟨e, he, hgo, hskip⟩, hall⟩
    refine ⟨⟨e, he, hgo, hskip⟩, ?_⟩
    intro f hf hfgo hfskip
    by_contra htest
    exact hall f hf ⟨⟨hfgo, hfskip⟩, by simpa using htest⟩
  · rintro ⟨⟨e, he, hgo, hskip⟩, hall⟩
    refine ⟨⟨e, he, hgo, hskip⟩, ?_⟩
    intro f hf
    rintro ⟨⟨hfgo, hfskip⟩, htest⟩
    have := hall f hf hfgo hfskip
    simp [this] at htest

lemma should_skip_of_always_skipped (fs : FS) (config : Config) (q : List String)
    (h : relPath q ∈ ALWAYS_SKIPPED) : should_skip fs config q = true := by
  unfold should_skip
  split
  · rfl
  · split
    · rfl
    · simp [h]

lemma mem_of_getLast?_eq_some {α : Type} : ∀ {l : List α} {a : α}, l.getLast? = some a → a ∈ l := by
  intro l
  induction l with
  | nil => intro a h; simp [List.getLast?] at h
  | cons x xs ih =>
    intro a h
    cases xs with
    | nil =>
      simp [List.getLast?] at h
      simp [h]
    | cons y ys =>
      rw [List.getLast?_cons_cons] at h
      exact List.mem_cons_of_mem x (ih h)

lemma scanGo_visited_mono (fs : FS) (pathRoot : String) (config : Config)
    (ign : List (String → Bool)) :
    ∀ (fuel : Nat) (frontier visited bad v b : List (List String)),
      scanGo fs pathRoot config ign fuel frontier visited bad = some (v, b) →
      ∀ p ∈ visited, p ∈ v := by
  intro fuel
  induction fuel with
  | zero =>
    intro frontier visited bad v b hrun p hp
    rw [scanGo] at hrun
    split at hrun
    · simp only [Option.some.injEq, Prod.mk.injEq] at hrun
      obtain ⟨h1, h2⟩ := hrun
      subst h1
      exact hp
    · cases hrun
  | succ n ih =>
    intro frontier visited bad v b hrun p hp
    rw [scanGo] at hrun
    cases hfl : frontier.getLast? with
    | none =>
      simp only [hfl] at hrun
      simp only [Option.some.injEq, Prod.mk.injEq] at hrun
      obtain ⟨h1, h2⟩ := hrun
      subst h1
      exact hp
    | some parent =>
      simp only [hfl] at hrun
      exact ih _ _ _ _ _ hrun p (List.mem_append_left _ hp)

lemma scanGo_bad_mem_iff (fs : FS) (pathRoot : String) (config : Config)
    (ign : List (String → Bool)) :
    ∀ (fuel : Nat) (frontier visited bad v b : List (List String)),
      scanGo fs pathRoot config ign fuel frontier visited bad = some (v, b) →
      (∀ p, p ∈ bad ↔ p ∈ visited ∧ dirMissingTests pathRoot ign p (fs.listdir p) = true) →
      ∀ p, p ∈ b ↔ p ∈ v ∧ dirMissingTests pathRoot ign p (fs.listdir p) = true := by
  intro fuel
  induction fuel with
  | zero =>
    intro frontier visited bad v b hrun hinv p
    rw [scanGo] at hrun
    split at hrun
    · simp only [Option.some.injEq, Prod.mk.injEq] at hrun
      obtain ⟨h1, h2⟩ := hrun
      subst h1; subst h2
      exact hinv p
    · cases hrun
  | succ n ih =>
    intro frontier visited bad v b hrun hinv p
    rw [scanGo] at hrun
    cases hfl : frontier.getLast? with
    | none =>
      simp only [hfl] at hrun
      simp only [Option.some.injEq, Prod.mk.injEq] at hrun
      obtain ⟨h1, h2⟩ := hrun
      subst h1; subst h2
      exact hinv p
    | some parent =>
      simp only [hfl] at hrun
      refine ih _ _ _ _ _ hrun ?_ p
      intro q
      by_cases hd : dirMissingTests pathRoot ign parent (fs.listdir parent) = true
      · rw [if_pos hd]
        simp only [List.mem_append, List.mem_singleton, hinv q]
        constructor
        · rintro (⟨h1, h2⟩ | rfl)
          · exact ⟨Or.inl h1, h2⟩
          · exact ⟨Or.inr rfl, hd⟩
        · rintro ⟨h1 | rfl, h2⟩
          · exact Or.inl ⟨h1, h2⟩
          · exact Or.inr rfl
      · rw [if_neg hd]
        simp only [List.mem_append, List.mem_singleton, hinv q]
        constructor
        · rintro ⟨h1, h2⟩
          exact ⟨Or.inl h1, h2⟩
        · rintro ⟨h1 | rfl, h2⟩
          · exact ⟨h1, h2⟩
          · exact absurd h2 hd

lemma scanGo_always_skipped_invariant (fs : FS) (pathRoot : String) (config : Config)
    (ign : List (String → Bool)) :
    ∀ (fuel : Nat) (frontier visited bad v b : List (List String)),
      scanGo fs pathRoot config ign fuel frontier visited bad = some (v, b) →
      (∀ p ∈ frontier, relPath p ∉ ALWAYS_SKIPPED) →
      (∀ p ∈ visited, relPath p ∉ ALWAYS_SKIPPED) →
      (∀ p ∈ bad, relPath p ∉ ALWAYS_SKIPPED) →
      (∀ p ∈ v, relPath p ∉ ALWAYS_SKIPPED) ∧ (∀ p ∈ b, relPath p ∉ ALWAYS_SKIPPED) := by
  intro fuel
  induction fuel with
  | zero =>
    intro frontier visited bad v b hrun hf hv hb
    rw [scanGo] at hrun
    split at hrun
    · simp only [Option.some.injEq, Prod.mk.injEq] at hrun
      obtain ⟨h1, h2⟩ := hrun
      subst h1; subst h2
      exact ⟨hv, hb⟩
    · cases hrun
  | succ n ih =>
    intro frontier visited bad v b hrun hf hv hb
    rw [scanGo] at hrun
    cases hfl : frontier.getLast? with
    | none =>
      simp only [hfl] at hrun
      simp only [Option.some.injEq, Prod.mk.injEq] at hrun
      obtain ⟨h1, h2⟩ := hrun
      subst h1; subst h2
      exact ⟨hv, hb⟩
    | some parent =>
      have hparent : parent ∈ frontier := mem_of_getLast?_eq_some hfl
      simp only [hfl] at hrun
      refine ih _ _ _ _ _ hrun ?_ ?_ ?_
      · intro q hq
        rcases List.mem_append.1 hq with h | h
        · exact hf q (List.mem_of_mem_dropLast h)
        · rcases List.mem_filterMap.1 h with ⟨e, _, hfe⟩
          by_cases hs : should_skip fs config (parent ++ [e]) = true
          · rw [if_pos hs] at hfe
            cases hfe
          · rw [if_neg hs] at hfe
            injection hfe with hfe
            subst hfe
            intro hmem
            exact hs (should_skip_of_always_skipped fs config _ hmem)
      · intro q hq
        rcases List.mem_append.1 hq with h | h
        · exact hv q h
        · rw [List.mem_singleton] at h
          subst h
          exact hf q hparent
      · split
        · intro q hq
          rcases List.mem_append.1 hq with h | h
          · exact hb q h
          · rw [List.mem_singleton] at h
            subst h
            exact hf q hparent
        · exact hb

lemma scanGo_root_visited (fs : FS) (pathRoot : String) (config : Config)
    (ign : List (String → Bool)) :
    ∀ (fuel : Nat) (v b : List (List String)),
      scanGo fs pathRoot config ign fuel [[]] [] [] = some (v, b) → ([] : List String) ∈ v := by
  intro fuel v b hrun
  cases fuel with
  | zero =>
    rw [scanGo] at hrun
    simp at hrun
  | succ n =>
    rw [scanGo] at hrun
    have hfl : ([[]] : List (List String)).getLast? = some [] := rfl
    simp only [hfl] at hrun
    exact scanGo_visited_mono fs pathRoot config ign _ _ _ _ _ _ hrun [] (by simp)

lemma tallyLines_foldl :
    ∀ (ls : List XML) (a b : Nat),
      ls.foldl
        (fun acc line =>
          if line.getAttr "hits" = some "0" then (acc.1 + 1, acc.2) else (acc.1, acc.2 + 1))
        (a, b) =
      (a + ls.countP (fun line => decide (line.getAttr "hits" = some "0")),
       b + ls.countP (fun line => !decide (line.getAttr "hits" = some "0"))) := by
  intro ls
  induction ls with
  | nil => simp
  | cons l ls ih =>
    intro a b
    simp only [List.foldl_cons, List.countP_cons]
    by_cases h : l.getAttr "hits" = some "0"
    · rw [if_pos h, ih]
      simp [h, Prod.ext_iff]
      omega
    · rw [if_neg h, ih]
      simp [h, Prod.ext_iff]
      omega

lemma tallyLines_eq (root : XML) :
    tallyLines root =
      ((collectLines root).countP (fun line => decide (line.getAttr "hits" = some "0")),
       (collectLines root).countP (fun line => !decide (line.getAttr "hits" = some "0"))) := by
  unfold tallyLines
  rw [tallyLines_foldl]
  simp

/-- A coverage report with one class, one method, 80 lines with `hits="1"`
and 20 lines with `hits="0"`. -/
def report80 : XML :=
  XML.elem "coverage" []
    [XML.elem "class" []
      [XML.elem "method" []
        (List.replicate 80 (XML.elem "line" [("hits", "1")] []) ++
         List.replicate 20 (XML.elem "line" [("hits", "0")] []))]]

/-- A coverage report whose single line has no `hits` attribute. -/
def reportNoHits : XML :=
  XML.elem "coverage" []
    [XML.elem "class" [] [XML.elem "method" [] [XML.elem "line" [] []]]]

/-- A coverage report with no `class` element at all: zero total lines. -/
def reportEmpty : XML := XML.elem "coverage" [] []

/-- A config requiring at least 80% line coverage. -/
def config80 : Config := ⟨[], [], some ⟨some 80⟩⟩

/-- A config requiring at least 80.1% line coverage. -/
def config801 : Config := ⟨[], [], some ⟨some (801 / 10)⟩⟩

/-- A filesystem whose root contains a `vendor` directory holding `x.go`. -/
def fsVendor : FS :=
  ⟨fun p => p.isEmpty || p == ["vendor"], fun _ => false,
   fun p => if p.isEmpty then ["vendor"] else if p == ["vendor"] then ["x.go"] else []⟩

/-- A config whose skip set and skip regex match everything, including the
root itself. -/
def configSkipAll : Config := ⟨["", "x.go"], [fun _ => true], none⟩

/-- Environment with no config file at the root; the scan has no fuel and the
report would crash the coverage division, but neither is reached. -/
def envNoConfig : Env := ⟨false, none, fsOnlyGo, "/repo", [], true, reportEmpty, 0⟩

/-- Environment with a config file that is present but unparsable JSON. -/
def envBadJson : Env := ⟨true, none, fsOnlyGo, "/repo", [], true, reportEmpty, 0⟩

/-- Environment where the test-presence gate and the coverage gate both pass. -/
def envBothPass : Env := ⟨true, some emptyConfig, fsGoWithTest, "/repo", [], false, reportEmpty, 1⟩

/-- Claim C1: during a terminating scan, a visited directory is in the
bad-path report iff its entry list has at least one entry ending in `.go`
whose full path matches no CLI-supplied file-ignore regex, and no such
non-ignored entry ends in `_test.go`.  In particular a directory holding
only `x.go` is reported bad and a directory holding `x.go` and `x_test.go`
is not. -/
theorem bad_path_report_characterization :
    (∀ (fs : FS) (pathRoot : String) (config : Config) (ign : List (String → Bool))
        (fuel : Nat) (visited bad : List (List String)),
      scanGo fs pathRoot config ign fuel [[]] [] [] = some (visited, bad) →
      ∀ p ∈ visited,
        (p ∈ bad ↔
          ((∃ e ∈ fs.listdir p, strEndsWith e GO_FILE_SUFFIX = true ∧
              should_skip_file (fullPath pathRoot (p ++ [e])) ign = false) ∧
            (∀ e ∈ fs.listdir p, strEndsWith e GO_FILE_SUFFIX = true →
              should_skip_file (fullPath pathRoot (p ++ [e])) ign = false →
              strEndsWith e GO_TEST_FILE_SUFFIX = false)))) ∧
    scanGo fsOnlyGo "/repo" emptyConfig [] 1 [[]] [] [] = some ([[]], [[]]) ∧
    scanGo fsGoWithTest "/repo" emptyConfig [] 1 [[]] [] [] = some ([[]], []) := by
  refine ⟨?_, by decide, by decide⟩
  intro fs pathRoot config ign fuel visited bad hrun p hp
  have h := scanGo_bad_mem_iff fs pathRoot config ign fuel [[]] [] [] visited bad hrun
    (by simp) p
  rw [h]
  constructor
  · rintro ⟨_, hd⟩
    exact (dirMissingTests_iff _ _ _ _).1 hd
  · intro hd
    exact ⟨hp, (dirMissingTests_iff _ _ _ _).2 hd⟩

/-- Witness for C1: the characterization applied to the tree whose root holds
only `x.go`, at the root directory. -/
theorem bad_path_report_characterization_witness :
    (([] : List String) ∈ ([[]] : List (List String)) ↔
      ((∃ e ∈ fsOnlyGo.listdir [], strEndsWith e GO_FILE_SUFFIX = true ∧
          should_skip_file (fullPath "/repo" ([] ++ [e])) [] = false) ∧
        (∀ e ∈ fsOnlyGo.listdir [], strEndsWith e GO_FILE_SUFFIX = true →
          should_skip_file (fullPath "/repo" ([] ++ [e])) [] = false →
          strEndsWith e GO_TEST_FILE_SUFFIX = false))) :=
  bad_path_report_characterization.1 fsOnlyGo "/repo" emptyConfig [] 1 [[]] [[]]
    (by decide) [] (by decide)

/-- Claim C2: with a configured threshold and an existing, non-empty report,
the gate succeeds iff `100 * covered / (covered + uncovered) ≥ minPercent`;
for 80 covered and 20 uncovered lines the percentage is exactly 80, a
minimum of 80 is satisfied and a minimum of 80.1 is not. -/
theorem coverage_percentage_threshold :
    (∀ (config : Config) (minPercent : ℚ) (report : XML) (uncovered covered : Nat),
      config.coverage = some ⟨some minPercent⟩ →
      tallyLines report = (uncovered, covered) →
      covered + uncovered ≠ 0 →
      (coverage_is_sufficient true report config = some true ↔
        100 * (covered : ℚ) / ((covered : ℚ) + (uncovered : ℚ)) ≥ minPercent)) ∧
    tallyLines report80 = (20, 80) ∧
    100 * ((80 : ℚ)) / ((80 : ℚ) + (20 : ℚ)) = 80 ∧
    coverage_is_sufficient true report80 config80 = some true ∧
    coverage_is_sufficient true report80 config801 = some false := by
  refine ⟨?_, by decide, by norm_num, ?_, ?_⟩
  · intro config minPercent report uncovered covered hcov ht htot
    simp only [coverage_is_sufficient, hcov, ht]
    rw [if_neg (by simp), if_neg htot]
    rw [Nat.cast_add]
    split_ifs with hlt
    · exact iff_of_false (by simp) (not_le.2 hlt)
    · exact iff_of_true rfl (not_lt.1 hlt)
  · norm_num [coverage_is_sufficient, config80, show tallyLines report80 = (20, 80) by decide]
  · norm_num [coverage_is_sufficient, config801, show tallyLines report80 = (20, 80) by decide]

/-- Witness for C2: the threshold characterization applied to the 80/20
report with minimum 80. -/
theorem coverage_percentage_threshold_witness :
    coverage_is_sufficient true report80 config80 = some true ↔
      100 * ((80 : Nat) : ℚ) / (((80 : Nat) : ℚ) + ((20 : Nat) : ℚ)) ≥ (80 : ℚ) :=
  coverage_percentage_threshold.1 config80 80 report80 20 80 rfl (by decide) (by decide)

/-- Claim C3 (code bug): on a report with zero total lines and a configured
threshold, the script performs `100.0 * float(0) / float(0)` and crashes with
an uncaught `ZeroDivisionError`, modelled as `none`; the spec requires the
empty report to be treated as insufficient or as an explicit fatal error
instead. -/
theorem empty_report_division_crash :
    coverage_is_sufficient true reportEmpty config80 = none := rfl

/-- Claim C4: no coverage section at all is trivially sufficient; a coverage
section lacking the minimum-percentage field is insufficient regardless of
the report; a configured threshold with a missing `coverage.xml` is
insufficient. -/
theorem coverage_gate_config_cases :
    (∀ (skippedPaths : List String) (skippedRegexPaths : List (String → Bool))
        (reportExists : Bool) (report : XML),
      coverage_is_sufficient reportExists report
        ⟨skippedPaths, skippedRegexPaths, none⟩ = some true) ∧
    (∀ (skippedPaths : List String) (skippedRegexPaths : List (String → Bool))
        (reportExists : Bool) (report : XML),
      coverage_is_sufficient reportExists report
        ⟨skippedPaths, skippedRegexPaths, some ⟨none⟩⟩ = some false) ∧
    (∀ (skippedPaths : List String) (skippedRegexPaths : List (String → Bool))
        (report : XML) (minPercent : ℚ),
      coverage_is_sufficient false report
        ⟨skippedPaths, skippedRegexPaths, some ⟨some minPercent⟩⟩ = some false) :=
  ⟨fun _ _ _ _ => rfl, fun _ _ _ _ => rfl, fun _ _ _ _ => rfl⟩

/-- Claim C5: a missing config file yields exit 0 with neither gate running
(the environment's filesystem, fuel and report are arbitrary, including a
fuel-starved scan and a report that would crash the division); a present but
unparsable config yields exit 1. -/
theorem config_absent_opt_in :
    (∀ env : Env, env.configFileExists = false → main env = some 0) ∧
    (∀ env : Env, env.configFileExists = true → env.configParse = none →
      main env = some 1) := by
  constructor
  · intro env h
    simp [main, h]
  · intro env h1 h2
    simp [main, h1, h2]

/-- Witness for C5: an absent config exits 0 even with zero fuel and a
crashing report; an unparsable config exits 1. -/
theorem config_absent_opt_in_witness :
    main envNoConfig = some 0 ∧ main envBadJson = some 1 :=
  ⟨config_absent_opt_in.1 envNoConfig rfl, config_absent_opt_in.2 envBadJson rfl rfl⟩

/-- Claim C6: with a parsable config, a failing test-presence gate exits 1
whatever the coverage gate would do (even when it would crash); a passing
test-presence gate followed by a failing coverage gate exits 1; and exit 0
holds iff both gates pass. -/
theorem gate_ordering :
    ∀ (env : Env) (config : Config),
      env.configFileExists = true → env.configParse = some config →
      ((all_directories_have_tests env.fs env.pathRoot config env.coverIgnoreSrcs env.fuel =
          some false → main env = some 1) ∧
        (all_directories_have_tests env.fs env.pathRoot config env.coverIgnoreSrcs env.fuel =
            some true →
          coverage_is_sufficient env.reportExists env.report config = some false →
          main env = some 1) ∧
        (main env = some 0 ↔
          all_directories_have_tests env.fs env.pathRoot config env.coverIgnoreSrcs env.fuel =
              some true ∧
            coverage_is_sufficient env.reportExists env.report config = some true)) := by
  intro env config h1 h2
  refine ⟨?_, ?_, ?_, ?_⟩
  · intro hall
    simp [main, h1, h2, hall]
  · intro hall hcov
    simp [main, h1, h2, hall, hcov]
  · intro hmain
    cases hall : all_directories_have_tests env.fs env.pathRoot config env.coverIgnoreSrcs
        env.fuel with
    | none => exact absurd hmain (by simp [main, h1, h2, hall])
    | some allTested =>
      cases hcv : coverage_is_sufficient env.reportExists env.report config with
      | none =>
        cases allTested with
        | false => exact absurd hmain (by simp [main, h1, h2, hall])
        | true => exact absurd hmain (by simp [main, h1, h2, hall, hcv])
      | some s =>
        cases allTested with
        | false => exact absurd hmain (by simp [main, h1, h2, hall])
        | true =>
          cases s with
          | false => exact absurd hmain (by simp [main, h1, h2, hall, hcv])
          | true => exact ⟨rfl, rfl⟩
  · rintro ⟨hall, hcov⟩
    simp [main, h1, h2, hall, hcov]

/-- Witness for C6: both gates pass in `envBothPass`, so `main` exits 0. -/
theorem gate_ordering_witness : main envBothPass = some 0 :=
  (gate_ordering envBothPass emptyConfig rfl rfl).2.2.mpr ⟨by decide, rfl⟩

/-- Claim C7: the directory-skip predicate holds iff the path is not a
directory, or is a symlink, or its relative path is an always-skipped name,
or is in the configured skip set, or is matched by a configured skip regex
(the source checks these in exactly this order, short-circuiting on the
first that holds). -/
theorem should_skip_characterization :
    ∀ (fs : FS) (config : Config) (path : List String),
      should_skip fs config path = true ↔
        (fs.isDir path = false ∨ fs.isLink path = true ∨
          relPath path ∈ ALWAYS_SKIPPED ∨ relPath path ∈ config.skippedPaths ∨
          ∃ prog ∈ config.skippedRegexPaths, prog (relPath path) = true) := by
  intro fs config path
  by_cases h1 : fs.isDir path = false
  · simp [should_skip, h1]
  · by_cases h2 : fs.isLink path = true
    · simp [should_skip, h1, h2]
    · by_cases h3 : relPath path ∈ ALWAYS_SKIPPED
      · simp [should_skip, h1, h2, h3]
      · by_cases h4 : relPath path ∈ config.skippedPaths
        · simp [should_skip, h1, h2, h3, h4]
        · simp [should_skip, h1, h2, h3, h4, List.any_eq_true]

/-- Claim C8: a terminating scan never visits (pops and lists) or reports a
directory whose relative path is an always-skipped name; moreover the skip
predicate guarding every frontier push returns true for any such path, so
one is never pushed onto the frontier. -/
theorem always_skipped_never_entered :
    (∀ (fs : FS) (pathRoot : String) (config : Config) (ign : List (String → Bool))
        (fuel : Nat) (visited bad : List (List String)),
      scanGo fs pathRoot config ign fuel [[]] [] [] = some (visited, bad) →
      ∀ p : List String, relPath p ∈ ALWAYS_SKIPPED → p ∉ visited ∧ p ∉ bad) ∧
    (∀ (fs : FS) (config : Config) (q : List String),
      relPath q ∈ ALWAYS_SKIPPED → should_skip fs config q = true) := by
  constructor
  · intro fs pathRoot config ign fuel visited bad hrun p hp
    have h := scanGo_always_skipped_invariant fs pathRoot config ign fuel [[]] [] []
      visited bad hrun (by intro q hq; simp at hq; subst hq; decide) (by simp) (by simp)
    exact ⟨fun hv => h.1 p hv hp, fun hb => h.2 p hb hp⟩
  · exact fun fs config q h => should_skip_of_always_skipped fs config q h

/-- Witness for C8: scanning a root that holds a `vendor` directory with a
go file inside, `vendor` is neither visited nor reported. -/
theorem always_skipped_never_entered_witness :
    (["vendor"] : List String) ∉ ([[]] : List (List String)) ∧
      (["vendor"] : List String) ∉ ([] : List (List String)) :=
  always_skipped_never_entered.1 fsVendor "/repo" emptyConfig [] 2 [[]] []
    (by decide) ["vendor"] (by decide)

/-- Claim C9: the coverage tally counts a line as uncovered exactly when its
`hits` attribute equals the string `"0"`, and as covered otherwise; in
particular a line with no `hits` attribute at all is counted as covered. -/
theorem line_hits_tally :
    (∀ report : XML,
      tallyLines report =
        ((collectLines report).countP (fun line => decide (line.getAttr "hits" = some "0")),
         (collectLines report).countP
           (fun line => !decide (line.getAttr "hits" = some "0")))) ∧
    (∀ line : XML, line.getAttr "hits" = none →
      decide (line.getAttr "hits" = some "0") = false) ∧
    tallyLines reportNoHits = (0, 1) := by
  refine ⟨tallyLines_eq, ?_, by decide⟩
  intro line h
  simp [h]

/-- Witness for C9: a line element with an empty attribute list has no `hits`
attribute and is not counted as uncovered. -/
theorem line_hits_tally_witness :
    decide ((XML.elem "line" [] []).getAttr "hits" = some "0") = false :=
  line_hits_tally.2.1 (XML.elem "line" [] []) rfl

/-- Claim C10: the traversal root is pushed unfiltered and the skip predicate
is applied only to entries inside visited directories, so any terminating
scan visits the root, and a root holding a non-ignored `.go` entry and no
`_test.go` entry is reported bad, for every configuration (including ones
whose skip rules would match the root). -/
theorem root_always_scanned :
    ∀ (fs : FS) (pathRoot : String) (config : Config) (ign : List (String → Bool))
        (fuel : Nat) (visited bad : List (List String)),
      scanGo fs pathRoot config ign fuel [[]] [] [] = some (visited, bad) →
      ([] : List String) ∈ visited ∧
        (((∃ e ∈ fs.listdir [], strEndsWith e GO_FILE_SUFFIX = true ∧
              should_skip_file (fullPath pathRoot [e]) ign = false) ∧
            (∀ e ∈ fs.listdir [], strEndsWith e GO_TEST_FILE_SUFFIX = false)) →
          ([] : List String) ∈ bad) := by
  intro fs pathRoot config ign fuel visited bad hrun
  have hv : ([] : List String) ∈ visited := scanGo_root_visited fs pathRoot config ign fuel
    visited bad hrun
  refine ⟨hv, ?_⟩
  rintro ⟨hex, hne⟩
  have h := scanGo_bad_mem_iff fs pathRoot config ign fuel [[]] [] [] visited bad hrun
    (by simp) []
  rw [h]
  refine ⟨hv, (dirMissingTests_iff _ _ _ _).2 ⟨?_, ?_⟩⟩
  · simpa using hex
  · intro e he _ _
    exact hne e he

/-- Witness for C10: with a config whose skip rules match everything, the
root holding only `x.go` is still visited. -/
theorem root_always_scanned_witness :
    ([] : List String) ∈ ([[]] : List (List String)) :=
  (root_always_scanned fsOnlyGo "/repo" configSkipAll [] 1 [[]] [[]] (by decide)).1

end CheckCoverage
